import Mathlib

/-!
Shallow embedding of `src/eltako-windsensor-ws.c`, an Arduino Uno pulse
counter for the "Eltako Windsensor WS" anemometer.

Modelling conventions:
* C `unsigned long` (32-bit on AVR) values are `Nat` with explicit
  wrapping where the source can overflow; `ULONG_MAX = 2^32 - 1`.
* C `unsigned int` (16-bit on AVR) is `Nat` with `% 65536` where the
  source increments it (`++pulseCount`).
* `millis()` readings are passed in as explicit `Nat` arguments (the
  clock is an input of the interrupt handler).
* `float`/`double` arithmetic of the reporting path is modelled over
  `ℚ` (and over `ℝ` where the source calls `log10`); the concrete
  values the claims cite (120/60, 50.0, 0.02) are exactly
  representable in the source's floating-point types.
* `digitalWrite(LED_BUILTIN, ...)` is modelled as appending the
  written value to an output trace `ledWrites`.
* `noInterrupts()` / `interrupts()`: while capture is disarmed the
  interrupt handler `countPulse` does not run, so edges arriving in
  that span leave the handler state untouched.
-/

/-- Arduino constant `LOW`. -/
def LOW : Nat := 0

/-- Arduino constant `HIGH`. -/
def HIGH : Nat := 1

/-- C constant `ULONG_MAX` on AVR: `2^32 - 1`. -/
def ULONG_MAX : Nat := 4294967295

/-- Modulus of the 16-bit `unsigned int` type of `pulseCount` on AVR. -/
def UINT_MOD : Nat := 65536

/-- Source: `const unsigned int measurementDelaySeconds = 60;`. -/
def measurementDelaySeconds : Nat := 60

/-- Source: `const unsigned int debounceDelayMillis = 10;`. -/
def debounceDelayMillis : Nat := 10

/-- Source: `const float maxImpulsesPerSecond = ((float)1000 / debounceDelayMillis) * 0.5f;`. -/
def maxImpulsesPerSecond : ℚ := ((1000 : ℚ) / (debounceDelayMillis : ℚ)) * (1 / 2)

/-- The mutable state touched by the interrupt handler `countPulse`:
the globals `pulseCount` (16-bit unsigned), `lastPulse` (32-bit
unsigned millis reading), `ledState` (byte, `LOW`/`HIGH`), plus the
trace of values written to the LED output pin. -/
structure HState where
  pulseCount : Nat
  lastPulse : Nat
  ledState : Nat
  ledWrites : List Nat
  deriving Repr, DecidableEq

/-- State after `setup()` ran: the globals carry their initializers
(`pulseCount = 0`, `lastPulse = 0`, `ledState = LOW`) and setup wrote
`ledState` to the LED once. -/
def setupState : HState :=
  { pulseCount := 0, lastPulse := 0, ledState := LOW, ledWrites := [LOW] }

/-- The elapsed-time computation of `countPulse` (lines 132-140):
`if (time >= lastPulse) timeSinceLastPulse = time - lastPulse;
else timeSinceLastPulse = (ULONG_MAX - lastPulse) + time;`. -/
def timeSinceLastPulse (lastPulse now : Nat) : Nat :=
  if now ≥ lastPulse then now - lastPulse else (ULONG_MAX - lastPulse) + now

/-- Modelled from the spec's words, for comparison with the source's
`timeSinceLastPulse`: the true elapsed time under non-wrapped (modular)
clock arithmetic, `(now - last) mod 2^32`, i.e. what an unwrapped
subtraction of the underlying instants would give. -/
def modularElapsed (lastPulse now : Nat) : Nat :=
  (now + (ULONG_MAX + 1) - lastPulse) % (ULONG_MAX + 1)

/-- The interrupt handler `countPulse()` (lines 125-157), as a function
of the handler state and the `millis()` reading `time` taken at entry.
If the debounce test fails the handler returns with no state change;
otherwise it records the pulse time, increments the 16-bit tally,
flips the LED state and writes it to the output pin. -/
def countPulse (s : HState) (time : Nat) : HState :=
  if timeSinceLastPulse s.lastPulse time ≤ debounceDelayMillis then s
  else
    let led := if s.ledState = HIGH then LOW else HIGH
    { pulseCount := (s.pulseCount + 1) % UINT_MOD
      lastPulse := time
      ledState := led
      ledWrites := s.ledWrites ++ [led] }

/-- Whether a falling edge at `millis()` reading `time` passes the
debounce test of `countPulse` in state `s` (the negation of the
early-return condition on line 142). -/
def accepted (s : HState) (time : Nat) : Bool :=
  decide (debounceDelayMillis < timeSinceLastPulse s.lastPulse time)

/-- Run `countPulse` on a sequence of edge `millis()` readings. -/
def runEdges (s : HState) : List Nat → HState
  | [] => s
  | t :: ts => runEdges (countPulse s t) ts

/-- The sublist of edge times the handler accepts when the edges are
fed to `countPulse` in order from state `s`. -/
def acceptedTimes (s : HState) : List Nat → List Nat
  | [] => []
  | t :: ts =>
      if accepted s t then t :: acceptedTimes (countPulse s t) ts
      else acceptedTimes s ts

/-- Number of edges of `ts` the handler accepts starting from `s`. -/
def countAccepted (s : HState) (ts : List Nat) : Nat :=
  (acceptedTimes s ts).length

/-- Source line 170: `float pulsesPerSecond = (float)pulseCount / measurementDelaySeconds;`. -/
def pulsesPerSecond (pulseCount : Nat) : ℚ :=
  (pulseCount : ℚ) / (measurementDelaySeconds : ℚ)

/-- Source line 172: `float pulsesPerMinute = (float)pulseCount*60 / measurementDelaySeconds;`. -/
def pulsesPerMinute (pulseCount : Nat) : ℚ :=
  (pulseCount : ℚ) * 60 / (measurementDelaySeconds : ℚ)

/-- Source lines 204-214, `numberOfDecimalsNeeded`:
`return ceil(abs(log10(smallestNumber)));` (Arduino's `abs` macro is
the polymorphic absolute value). -/
noncomputable def numberOfDecimalsNeeded (smallestNumber : ℝ) : ℤ :=
  ⌈|Real.logb 10 smallestNumber|⌉

/-- Source line 183: `int displayedDecimals = numberOfDecimalsNeeded((float)1 / maxImpulsesPerSecond);`. -/
noncomputable def displayedDecimals : ℤ :=
  numberOfDecimalsNeeded ((1 : ℝ) / ((maxImpulsesPerSecond : ℚ) : ℝ))

/-- One window's report, as printed by `loop()` (lines 175-199):
the raw tally, both rates, and whether the over-range warning of
lines 194-197 is printed. -/
structure Report where
  pulsesMeasured : Nat
  perSecond : ℚ
  perMinute : ℚ
  warning : Bool
  deriving Repr, DecidableEq

/-- State at the instant a window is armed: `loop()` first runs
`pulseCount = 0;` (line 161) and then `interrupts()`; nothing else is
touched. -/
def windowArmState (s : HState) : HState :=
  { s with pulseCount := 0 }

/-- The range-check guard of `loop()` line 194:
`if(pulsesPerSecond >= maxImpulsesPerSecond)`. -/
def overRange (pps : ℚ) : Bool :=
  decide (pps ≥ maxImpulsesPerSecond)

/-- One iteration of `loop()` (lines 159-200): reset the tally, arm
capture, process the edges arriving during the window, disarm, then
compute and report the rates and the range check. Edges in `gapEdges`
arrive while capture is disarmed (between this window's `noInterrupts()`
and the next window's `interrupts()`): the handler does not run for
them, so they touch nothing. -/
def windowCycle (s : HState) (duringEdges _gapEdges : List Nat) : Report × HState :=
  let armed := runEdges (windowArmState s) duringEdges
  let pps := pulsesPerSecond armed.pulseCount
  let ppm := pulsesPerMinute armed.pulseCount
  ({ pulsesMeasured := armed.pulseCount
     perSecond := pps
     perMinute := ppm
     warning := overRange pps }, armed)

/-- Repeated iterations of `loop()`: each element of `ws` is the pair
(edges during the armed window, edges while disarmed afterwards);
returns the reports in order and the final handler state. -/
def systemRun (s : HState) : List (List Nat × List Nat) → List Report × HState
  | [] => ([], s)
  | w :: ws =>
      let (r, s') := windowCycle s w.1 w.2
      let (rs, s'') := systemRun s' ws
      (r :: rs, s'')

/-! ### Helper lemmas about the interrupt handler -/

lemma accepted_iff (s : HState) (t : Nat) :
    accepted s t = true ↔ debounceDelayMillis < timeSinceLastPulse s.lastPulse t := by
  simp [accepted]

lemma countPulse_of_rejected {s : HState} {t : Nat} (h : accepted s t = false) :
    countPulse s t = s := by
  have h' : timeSinceLastPulse s.lastPulse t ≤ debounceDelayMillis := by
    have := (accepted_iff s t).not
    simp [h] at this
    omega
  simp [countPulse, h']

lemma countPulse_of_accepted {s : HState} {t : Nat} (h : accepted s t = true) :
    countPulse s t =
      { pulseCount := (s.pulseCount + 1) % UINT_MOD
        lastPulse := t
        ledState := if s.ledState = HIGH then LOW else HIGH
        ledWrites := s.ledWrites ++ [if s.ledState = HIGH then LOW else HIGH] } := by
  have h' := (accepted_iff s t).mp h
  simp [countPulse, Nat.not_le.mpr h', h'.not_le]

lemma accepted_of_gap {s : HState} {t : Nat}
    (h : s.lastPulse + debounceDelayMillis < t) : accepted s t = true := by
  rw [accepted_iff]
  unfold timeSinceLastPulse
  rw [if_pos (by omega : t ≥ s.lastPulse)]
  omega

lemma rejected_of_close {s : HState} {t : Nat} (hle : s.lastPulse ≤ t)
    (h : t - s.lastPulse ≤ debounceDelayMillis) : accepted s t = false := by
  have : ¬ accepted s t = true := by
    rw [accepted_iff]
    unfold timeSinceLastPulse
    rw [if_pos hle]
    omega
  simpa using this

lemma countPulse_pulseCount_accepted {s : HState} {t : Nat} (h : accepted s t = true) :
    (countPulse s t).pulseCount = (s.pulseCount + 1) % UINT_MOD := by
  rw [countPulse_of_accepted h]

lemma countPulse_lastPulse_accepted {s : HState} {t : Nat} (h : accepted s t = true) :
    (countPulse s t).lastPulse = t := by
  rw [countPulse_of_accepted h]

lemma countAccepted_cons_accepted {s : HState} {t : Nat} (ts : List Nat)
    (h : accepted s t = true) :
    countAccepted s (t :: ts) = countAccepted (countPulse s t) ts + 1 := by
  simp [countAccepted, acceptedTimes, h]

lemma countAccepted_cons_rejected {s : HState} {t : Nat} (ts : List Nat)
    (h : accepted s t = false) :
    countAccepted s (t :: ts) = countAccepted s ts := by
  simp [countAccepted, acceptedTimes, h]

lemma runEdges_pulseCount (ts : List Nat) : ∀ s : HState, s.pulseCount < UINT_MOD →
    (runEdges s ts).pulseCount = (s.pulseCount + countAccepted s ts) % UINT_MOD := by
  induction ts with
  | nil =>
      intro s hs
      simp [runEdges, countAccepted, acceptedTimes, Nat.mod_eq_of_lt hs]
  | cons t ts ih =>
      intro s hs
      by_cases ha : accepted s t = true
      · have h1 := countPulse_pulseCount_accepted ha
        have hlt : (countPulse s t).pulseCount < UINT_MOD := by
          rw [h1]
          exact Nat.mod_lt _ (by norm_num [UINT_MOD])
        calc (runEdges s (t :: ts)).pulseCount
            = (runEdges (countPulse s t) ts).pulseCount := rfl
          _ = ((countPulse s t).pulseCount + countAccepted (countPulse s t) ts)
                % UINT_MOD := ih (countPulse s t) hlt
          _ = ((s.pulseCount + 1) % UINT_MOD + countAccepted (countPulse s t) ts)
                % UINT_MOD := by rw [h1]
          _ = (s.pulseCount + countAccepted s (t :: ts)) % UINT_MOD := by
                rw [countAccepted_cons_accepted ts ha]
                unfold UINT_MOD
                omega
      · have haf : accepted s t = false := by simpa using ha
        have h0 : countPulse s t = s := countPulse_of_rejected haf
        calc (runEdges s (t :: ts)).pulseCount
            = (runEdges (countPulse s t) ts).pulseCount := rfl
          _ = (runEdges s ts).pulseCount := by rw [h0]
          _ = (s.pulseCount + countAccepted s ts) % UINT_MOD := ih s hs
          _ = (s.pulseCount + countAccepted s (t :: ts)) % UINT_MOD := by
                rw [countAccepted_cons_rejected ts haf]

lemma countAccepted_le_length (ts : List Nat) : ∀ s : HState,
    countAccepted s ts ≤ ts.length := by
  induction ts with
  | nil => intro s; simp [countAccepted, acceptedTimes]
  | cons t ts ih =>
      intro s
      by_cases ha : accepted s t = true
      · rw [countAccepted_cons_accepted ts ha]
        have := ih (countPulse s t)
        simp only [List.length_cons]
        omega
      · have haf : accepted s t = false := by simpa using ha
        rw [countAccepted_cons_rejected ts haf]
        have := ih s
        simp only [List.length_cons]
        omega

lemma acceptedTimes_subset (ts : List Nat) : ∀ s : HState,
    ∀ x ∈ acceptedTimes s ts, x ∈ ts := by
  induction ts with
  | nil => intro s x hx; simp [acceptedTimes] at hx
  | cons t ts ih =>
      intro s x hx
      by_cases ha : accepted s t = true
      · simp only [acceptedTimes, ha, if_pos, List.mem_cons] at hx
        rcases hx with h | h
        · simp [h]
        · exact List.mem_cons_of_mem t (ih (countPulse s t) x h)
      · have haf : accepted s t = false := by simpa using ha
        simp only [acceptedTimes, haf] at hx
        simp at hx
        exact List.mem_cons_of_mem t (ih s x hx)

lemma chain_le_of_le {a b : Nat} {ts : List Nat}
    (h : List.Chain (· ≤ ·) a ts) (hba : b ≤ a) : List.Chain (· ≤ ·) b ts := by
  cases ts with
  | nil => exact List.Chain.nil
  | cons u ts =>
      rcases List.chain_cons.mp h with ⟨hau, hrest⟩
      exact List.chain_cons.mpr ⟨le_trans hba hau, hrest⟩

lemma acceptedTimes_chain (ts : List Nat) : ∀ s : HState,
    List.Chain (· ≤ ·) s.lastPulse ts →
    List.Chain (fun a b => a + debounceDelayMillis < b) s.lastPulse
      (acceptedTimes s ts) := by
  induction ts with
  | nil => intro s _; simp [acceptedTimes]
  | cons t ts ih =>
      intro s h
      rcases List.chain_cons.mp h with ⟨hst, hrest⟩
      by_cases ha : accepted s t = true
      · have hgap : s.lastPulse + debounceDelayMillis < t := by
          have := (accepted_iff s t).mp ha
          unfold timeSinceLastPulse at this
          rw [if_pos hst] at this
          omega
        have hlast := countPulse_lastPulse_accepted ha
        have hnext : List.Chain (· ≤ ·) (countPulse s t).lastPulse ts := by
          rw [hlast]; exact hrest
        have := ih (countPulse s t) hnext
        rw [hlast] at this
        simp only [acceptedTimes, ha, if_pos]
        exact List.chain_cons.mpr ⟨hgap, this⟩
      · have haf : accepted s t = false := by simpa using ha
        simp only [acceptedTimes, haf]
        simp only [Bool.false_eq_true, if_false]
        exact ih s (chain_le_of_le hrest hst)

lemma acceptedTimes_all (ts : List Nat) : ∀ s : HState,
    List.Chain (fun a b => a + debounceDelayMillis < b) s.lastPulse ts →
    acceptedTimes s ts = ts := by
  induction ts with
  | nil => intro s _; simp [acceptedTimes]
  | cons t ts ih =>
      intro s h
      rcases List.chain_cons.mp h with ⟨hgap, hrest⟩
      have ha : accepted s t = true := accepted_of_gap hgap
      have hlast := countPulse_lastPulse_accepted ha
      have hnext : List.Chain (fun a b => a + debounceDelayMillis < b)
          (countPulse s t).lastPulse ts := by
        rw [hlast]; exact hrest
      simp only [acceptedTimes, ha, if_pos]
      rw [ih (countPulse s t) hnext]

/-! ### Claims -/

/-- C1: every invocation of `countPulse` either sees elapsed time
`≤ debounceDelayMillis` and leaves all state (`pulseCount`, `lastPulse`,
`ledState`, the LED output trace) unchanged, or sees elapsed time
`> debounceDelayMillis` and sets `lastPulse` to the current time,
increments `pulseCount` by exactly 1 (in the source's 16-bit unsigned
arithmetic; equal to `+ 1` whenever the counter is below 65535), flips
the indicator state and writes the flipped value to the output. -/
theorem countPulse_branch_spec (s : HState) (t : Nat) :
    (timeSinceLastPulse s.lastPulse t ≤ debounceDelayMillis → countPulse s t = s)
    ∧ (debounceDelayMillis < timeSinceLastPulse s.lastPulse t →
        (countPulse s t).lastPulse = t
        ∧ (countPulse s t).pulseCount = (s.pulseCount + 1) % UINT_MOD
        ∧ (s.pulseCount < UINT_MOD - 1 →
            (countPulse s t).pulseCount = s.pulseCount + 1)
        ∧ (countPulse s t).ledState = (if s.ledState = HIGH then LOW else HIGH)
        ∧ (countPulse s t).ledWrites = s.ledWrites ++ [(countPulse s t).ledState]) := by
  constructor
  · intro h
    simp [countPulse, h]
  · intro h
    have ha : accepted s t = true := (accepted_iff s t).mpr h
    rw [countPulse_of_accepted ha]
    refine ⟨rfl, rfl, ?_, rfl, rfl⟩
    intro hlt
    have hsum : s.pulseCount + 1 < UINT_MOD := by
      unfold UINT_MOD at *
      omega
    exact Nat.mod_eq_of_lt hsum

/-- Witness for C1: an edge 5 ms after startup is discarded with no
state change; an edge at 20 ms is accepted, setting `lastPulse` and
incrementing the tally by one. -/
theorem countPulse_branch_spec_witness :
    countPulse setupState 5 = setupState
    ∧ (countPulse setupState 20).lastPulse = 20
    ∧ (countPulse setupState 20).pulseCount = setupState.pulseCount + 1 :=
  ⟨(countPulse_branch_spec setupState 5).1 (by decide),
   ((countPulse_branch_spec setupState 20).2 (by decide)).1,
   ((countPulse_branch_spec setupState 20).2 (by decide)).2.2.1 (by decide)⟩

/-- C2 counterexample: at `lastPulse = 4294967290`, `now = 5` the
source computes an elapsed time of 10, while the true (non-wrapped,
modular) elapsed time is 11 — so the computed value does not agree
with non-wrapped arithmetic. -/
theorem timeSinceLastPulse_wrap_cex :
    timeSinceLastPulse 4294967290 5 = 10
    ∧ modularElapsed 4294967290 5 = 11
    ∧ ¬ timeSinceLastPulse 4294967290 5 = modularElapsed 4294967290 5 := by
  decide

/-- C2 amended: for clock readings below `2^32`, if `now ≥ last` the
computed elapsed time is `now - last` and agrees with true modular
arithmetic; if `now < last` (wraparound) the source computes
`(ULONG_MAX - last) + now`, which is exactly one less than the true
modular elapsed time. -/
theorem timeSinceLastPulse_wraparound (lastPulse now : Nat)
    (hl : lastPulse ≤ ULONG_MAX) (hn : now ≤ ULONG_MAX) :
    (lastPulse ≤ now →
        timeSinceLastPulse lastPulse now = now - lastPulse
        ∧ timeSinceLastPulse lastPulse now = modularElapsed lastPulse now)
    ∧ (now < lastPulse →
        timeSinceLastPulse lastPulse now = (ULONG_MAX - lastPulse) + now
        ∧ timeSinceLastPulse lastPulse now + 1 = modularElapsed lastPulse now) := by
  unfold timeSinceLastPulse modularElapsed ULONG_MAX at *
  constructor
  · intro h
    rw [if_pos (show now ≥ lastPulse from h)]
    exact ⟨rfl, by omega⟩
  · intro h
    rw [if_neg (show ¬ now ≥ lastPulse by omega)]
    exact ⟨rfl, by omega⟩

/-- Witness for C2's amended theorem: the wrap case at
`lastPulse = 4294967290`, `now = 5` (computed 10, true elapsed 11) and
a non-wrap case at `lastPulse = 100`, `now = 250`. -/
theorem timeSinceLastPulse_wraparound_witness :
    timeSinceLastPulse 4294967290 5 = (ULONG_MAX - 4294967290) + 5
    ∧ timeSinceLastPulse 4294967290 5 + 1 = modularElapsed 4294967290 5
    ∧ timeSinceLastPulse 100 250 = 250 - 100 :=
  ⟨((timeSinceLastPulse_wraparound 4294967290 5 (by decide) (by decide)).2
      (by decide)).1,
   ((timeSinceLastPulse_wraparound 4294967290 5 (by decide) (by decide)).2
      (by decide)).2,
   ((timeSinceLastPulse_wraparound 100 250 (by decide) (by decide)).1
      (by decide)).1⟩

/-- C9: because `lastPulse` is initialized to 0, the very first edge
after startup is discarded whenever its `millis()` reading is at most
`debounceDelayMillis`, even though no pulse was ever accepted. -/
theorem first_edge_discarded (t : Nat) (h : t ≤ debounceDelayMillis) :
    countPulse setupState t = setupState := by
  have h0 : setupState.lastPulse = 0 := rfl
  have helapsed : timeSinceLastPulse setupState.lastPulse t ≤ debounceDelayMillis := by
    rw [h0]
    unfold timeSinceLastPulse
    rw [if_pos (Nat.zero_le t)]
    simpa using h
  simp [countPulse, helapsed]

/-- Witness for C9: the boundary case, an edge exactly 10 ms after
startup, is discarded. -/
theorem first_edge_discarded_witness :
    countPulse setupState 10 = setupState :=
  first_edge_discarded 10 (by decide)

/-- C5: the measurement cycle computes
`pulsesPerSecond = tally / windowSeconds` and
`pulsesPerMinute = tally * 60 / windowSeconds` over a 60-second
window; in particular a tally of 120 yields 2.0 pulses per second and
120.0 pulses per minute. -/
theorem rate_computation (pulseCount : Nat) :
    pulsesPerSecond pulseCount = (pulseCount : ℚ) / (measurementDelaySeconds : ℚ)
    ∧ pulsesPerMinute pulseCount
        = (pulseCount : ℚ) * 60 / (measurementDelaySeconds : ℚ)
    ∧ pulsesPerMinute pulseCount = 60 * pulsesPerSecond pulseCount
    ∧ measurementDelaySeconds = 60
    ∧ pulsesPerSecond 120 = 2
    ∧ pulsesPerMinute 120 = 120 := by
  refine ⟨rfl, rfl, ?_, rfl, ?_, ?_⟩
  · unfold pulsesPerMinute pulsesPerSecond measurementDelaySeconds
    push_cast
    ring
  · unfold pulsesPerSecond measurementDelaySeconds
    norm_num
  · unfold pulsesPerMinute measurementDelaySeconds
    norm_num

/-- C7: a window's report carries the over-range warning exactly when
the computed pulses-per-second reaches `maxImpulsesPerSecond`; the
boundary is inclusive (a rate exactly equal to the maximum triggers
it, e.g. a tally of 3000 giving exactly 50.0), and the warning is
advisory: the run continues with further windows regardless. -/
theorem warning_iff_over_range (s : HState) (d g : List Nat) :
    ((windowCycle s d g).1.warning = true ↔
      pulsesPerSecond (windowCycle s d g).1.pulsesMeasured ≥ maxImpulsesPerSecond)
    ∧ overRange maxImpulsesPerSecond = true
    ∧ pulsesPerSecond 3000 = maxImpulsesPerSecond
    ∧ overRange (pulsesPerSecond 3000) = true
    ∧ (∀ ws : List (List Nat × List Nat),
        (systemRun s ((d, g) :: ws)).1
          = (windowCycle s d g).1 :: (systemRun (windowCycle s d g).2 ws).1) := by
  refine ⟨?_, ?_, ?_, ?_, ?_⟩
  · simp [windowCycle, overRange]
  · simp [overRange]
  · unfold pulsesPerSecond measurementDelaySeconds maxImpulsesPerSecond
      debounceDelayMillis
    norm_num
  · rw [show pulsesPerSecond 3000 = maxImpulsesPerSecond by
      unfold pulsesPerSecond measurementDelaySeconds maxImpulsesPerSecond
        debounceDelayMillis
      norm_num]
    simp [overRange]
  · intro ws
    simp [systemRun]

/-- C3 counterexample: the one-edge sequence `[5]` vacuously satisfies
"each edge arrives strictly more than the debounce interval after the
previous edge", yet from the initial handler state (`lastPulse = 0`)
the edge is not accepted: the claim's conclusion `every edge accepted`
fails. -/
theorem spaced_edges_cex :
    List.Chain' (fun a b => a + debounceDelayMillis < b) [5]
    ∧ countAccepted setupState [5] = 0
    ∧ ([5] : List Nat).length = 1 := by
  refine ⟨List.chain'_singleton 5, by decide, rfl⟩

/-- C3 amended: for every sequence of edges in which each edge arrives
strictly more than the debounce interval after the previous edge, and
whose first edge also arrives strictly more than the debounce interval
after startup (clock reading `> debounceDelayMillis`, measured against
the initial `lastPulse = 0`), every edge is accepted — no false
suppression. -/
theorem spaced_edges_all_accepted (ts : List Nat)
    (h : List.Chain (fun a b => a + debounceDelayMillis < b) 0 ts) :
    countAccepted setupState ts = ts.length := by
  have h0 : setupState.lastPulse = 0 := rfl
  have hall := acceptedTimes_all ts setupState (by rw [h0]; exact h)
  simp [countAccepted, hall]

/-- Witness for C3's amended theorem: the three edges at 11, 22 and
33 ms are all accepted. -/
theorem spaced_edges_all_accepted_witness :
    countAccepted setupState [11, 22, 33] = 3 := by
  have h := spaced_edges_all_accepted [11, 22, 33]
    (by norm_num [List.chain_cons, debounceDelayMillis])
  simpa using h

/-- C4: for every sorted edge sequence (readings not before the
last-accepted timestamp and nondecreasing), the accepted pulses are
pairwise separated by strictly more than the debounce interval (no two
accepted pulses closer than the debounce interval); among edges
pairwise spaced at most the debounce interval apart, at most one is
accepted; and every accepted pulse strictly advances the
last-accepted-pulse timestamp. -/
theorem debounce_invariant (s : HState) (ts : List Nat)
    (hsorted : List.Chain (· ≤ ·) s.lastPulse ts) :
    List.Chain (fun a b => a + debounceDelayMillis < b) s.lastPulse
      (acceptedTimes s ts)
    ∧ ((∀ a ∈ ts, ∀ b ∈ ts, a ≤ b → b - a ≤ debounceDelayMillis) →
        countAccepted s ts ≤ 1)
    ∧ (∀ t, s.lastPulse ≤ t → accepted s t = true →
        s.lastPulse < (countPulse s t).lastPulse) := by
  have hchain := acceptedTimes_chain ts s hsorted
  refine ⟨hchain, ?_, ?_⟩
  · intro hp
    match hat : acceptedTimes s ts with
    | [] => simp [countAccepted, hat]
    | [a] => simp [countAccepted, hat]
    | a :: b :: r =>
        exfalso
        rw [hat] at hchain
        rcases List.chain_cons.mp hchain with ⟨_, hbc⟩
        rcases List.chain_cons.mp hbc with ⟨hab, _⟩
        have haT : a ∈ ts := acceptedTimes_subset ts s a (by rw [hat]; simp)
        have hbT : b ∈ ts := acceptedTimes_subset ts s b (by rw [hat]; simp)
        have hclose := hp a haT b hbT (by omega)
        omega
  · intro t hle ha
    have hgap := (accepted_iff s t).mp ha
    unfold timeSinceLastPulse at hgap
    rw [if_pos hle] at hgap
    rw [countPulse_lastPulse_accepted ha]
    omega

/-- Witness for C4: from the initial state, the run on `[11, 15, 30]`
accepts `[11, 30]`, which are spaced more than 10 ms apart; among
`[11, 15, 20]` (pairwise at most 10 ms apart) only one edge is
accepted; the accepted edge at 11 ms advances `lastPulse` past 0. -/
theorem debounce_invariant_witness :
    List.Chain (fun a b => a + debounceDelayMillis < b) setupState.lastPulse
      (acceptedTimes setupState [11, 15, 30])
    ∧ countAccepted setupState [11, 15, 20] ≤ 1
    ∧ setupState.lastPulse < (countPulse setupState 11).lastPulse :=
  ⟨(debounce_invariant setupState [11, 15, 30]
      (by norm_num [List.chain_cons, setupState])).1,
   (debounce_invariant setupState [11, 15, 20]
      (by norm_num [List.chain_cons, setupState])).2.1 (by decide),
   (debounce_invariant setupState [11, 15, 30]
      (by norm_num [List.chain_cons, setupState])).2.2 11
     (by decide) (by decide)⟩

/-- C6: with the default `debounceDelayMillis = 10`, the maximum
plausible rate is `maxImpulsesPerSecond = 50.0`, and the number of
decimal digits used for the report,
`ceil(abs(log10(1 / maxImpulsesPerSecond)))`, equals 2. -/
theorem displayed_decimals_spec :
    maxImpulsesPerSecond = 50 ∧ displayedDecimals = 2 := by
  have hmax : maxImpulsesPerSecond = 50 := by
    unfold maxImpulsesPerSecond debounceDelayMillis
    norm_num
  refine ⟨hmax, ?_⟩
  unfold displayedDecimals numberOfDecimalsNeeded
  rw [hmax]
  rw [show ((((50 : ℚ)) : ℝ)) = (50 : ℝ) by norm_num]
  rw [one_div, Real.logb_inv, abs_neg,
    abs_of_nonneg (Real.logb_nonneg (by norm_num) (by norm_num))]
  rw [Int.ceil_eq_iff]
  constructor
  · have h10 : (10 : ℝ) ^ (1 : ℝ) < 50 := by
      rw [Real.rpow_one]
      norm_num
    have hgt := (Real.lt_logb_iff_rpow_lt (by norm_num) (by norm_num)).mpr h10
    push_cast
    linarith
  · have h100 : (50 : ℝ) ≤ (10 : ℝ) ^ (2 : ℝ) := by
      rw [show (2 : ℝ) = ((2 : ℕ) : ℝ) by norm_num, Real.rpow_natCast]
      norm_num
    have hle := (Real.logb_le_iff_le_rpow (by norm_num) (by norm_num)).mpr h100
    push_cast
    linarith

/-- C8: the tally is zero at the instant a window is armed; the
window's reported tally counts exactly the pulses accepted between Arm
and Disarm (each once); and edges arriving while capture is disarmed
touch nothing — they are counted toward neither the current window nor
any later one. -/
theorem window_tally_invariant (s : HState) (d g : List Nat)
    (hlen : d.length < UINT_MOD) :
    (windowArmState s).pulseCount = 0
    ∧ (windowCycle s d g).1.pulsesMeasured = countAccepted (windowArmState s) d
    ∧ windowCycle s d g = windowCycle s d []
    ∧ (∀ ws, systemRun s ((d, g) :: ws) = systemRun s ((d, []) :: ws)) := by
  refine ⟨rfl, ?_, rfl, fun ws => rfl⟩
  have h0 : (windowArmState s).pulseCount = 0 := rfl
  have hrun := runEdges_pulseCount d (windowArmState s)
    (by rw [h0]; norm_num [UINT_MOD])
  have hle := countAccepted_le_length d (windowArmState s)
  show (runEdges (windowArmState s) d).pulseCount = _
  rw [hrun, h0, Nat.zero_add]
  exact Nat.mod_eq_of_lt (by omega)

/-- Witness for C8: a window with edges at 20, 25 and 40 ms (25 falls
inside the debounce interval of 20) reports a tally of 2, the number
of accepted edges, with an edge at 100 ms arriving while disarmed. -/
theorem window_tally_invariant_witness :
    (windowCycle setupState [20, 25, 40] [100]).1.pulsesMeasured
      = countAccepted (windowArmState setupState) [20, 25, 40] :=
  (window_tally_invariant setupState [20, 25, 40] [100] (by decide)).2.1

/-- C10: the Reset step at a window boundary clears only `pulseCount`;
`lastPulse`, `ledState` and the LED output trace carry over unchanged,
so an edge arriving within `debounceDelayMillis` of the last pulse
accepted in the previous window is discarded even though it falls in
the new window. -/
theorem reset_frame_property (s : HState) (d g : List Nat) (t : Nat)
    (hle : ((windowCycle s d g).2).lastPulse ≤ t)
    (hclose : t - ((windowCycle s d g).2).lastPulse ≤ debounceDelayMillis) :
    (windowArmState ((windowCycle s d g).2)).lastPulse
        = ((windowCycle s d g).2).lastPulse
    ∧ (windowArmState ((windowCycle s d g).2)).ledState
        = ((windowCycle s d g).2).ledState
    ∧ (windowArmState ((windowCycle s d g).2)).ledWrites
        = ((windowCycle s d g).2).ledWrites
    ∧ countPulse (windowArmState ((windowCycle s d g).2)) t
        = windowArmState ((windowCycle s d g).2) := by
  refine ⟨rfl, rfl, rfl, ?_⟩
  exact countPulse_of_rejected (rejected_of_close hle hclose)

/-- Witness for C10: the previous window accepted a pulse at 20 ms;
the next window's edge at 25 ms (5 ms later) is discarded after the
reset. -/
theorem reset_frame_property_witness :
    countPulse (windowArmState ((windowCycle setupState [20] []).2)) 25
      = windowArmState ((windowCycle setupState [20] []).2) :=
  (reset_frame_property setupState [20] [] 25 (by decide) (by decide)).2.2.2
